import Mathlib

/-!
Verification of the quotation engine of the Cost-Estimation-Quotation-System
repository (src/app.py), shallowly embedded in Lean 4.

Monetary quantities and model outputs are embedded as rationals; the
error-raising dictionary lookup and the pandas column selection are embedded
as Option/Except-returning functions.  A separate small model of Python float
values (PyFloat) is used where finiteness of the cost matters.
-/

/-- Region error taxonomy of the quotation pipeline.  UnknownRegionError is
the failure of the dictionary lookup STATE_MULTIPLIERS[state] on a missing
key (src/app.py line 127); InvalidCostError is the non-finite-cost failure the
specification attributes to the breakdown calculator. -/
inductive QuoteError where
  | UnknownRegionError : QuoteError
  | InvalidCostError : QuoteError
deriving DecidableEq

/-- State price multiplier table, src/app.py lines 29-36, in insertion order. -/
def STATE_MULTIPLIERS : List (String × ℚ) :=
  [("Lagos", 115/100),
   ("Abuja", 112/100),
   ("Rivers", 110/100),
   ("Oyo", 1),
   ("Ogun", 95/100),
   ("Kwara", 92/100)]

/-- Options offered by the Project State select box, src/app.py line 58:
list(STATE_MULTIPLIERS.keys()). -/
def selectbox_state_options : List String := STATE_MULTIPLIERS.map Prod.fst

/-- Region adjustment, src/app.py lines 127-128: multiplier =
STATE_MULTIPLIERS[state] (a missing key raises, embedded as
UnknownRegionError) and total_cost = base_cost * multiplier.  Returns the
adjusted cost together with the multiplier used. -/
def adjust (base_cost : ℚ) (state : String) : Except QuoteError (ℚ × ℚ) :=
  match STATE_MULTIPLIERS.lookup state with
  | some multiplier => Except.ok (base_cost * multiplier, multiplier)
  | none => Except.error QuoteError.UnknownRegionError

/-- Materials share of the total, src/app.py line 133:
material_cost = total_cost * 0.65. -/
def material_cost (total_cost : ℚ) : ℚ := total_cost * (65/100)

/-- Labour share of the total, src/app.py line 134:
labour_cost = total_cost * 0.35. -/
def labour_cost (total_cost : ℚ) : ℚ := total_cost * (35/100)

/-- C1: for every adjusted total cost t, zero included, the breakdown
computes materials = t * 0.65 and labour = t * 0.35, and materials + labour
equals t exactly (hence within the 1e-9 relative tolerance); whenever t > 0
the ratio materials / t is the fixed constant 0.65.  The ratios are literal
constants of the code, independent of the model and of the input. -/
theorem breakdown_ratios (t : ℚ) :
    material_cost t = t * (65/100) ∧
    labour_cost t = t * (35/100) ∧
    material_cost t + labour_cost t = t ∧
    |material_cost t + labour_cost t - t| ≤ (1/10^9) * |t| ∧
    (0 < t → material_cost t / t = 65/100) := by
  refine ⟨rfl, rfl, by unfold material_cost labour_cost; ring, ?_, ?_⟩
  · have hz : material_cost t + labour_cost t - t = 0 := by
      unfold material_cost labour_cost; ring
    rw [hz]
    positivity
  · intro h
    unfold material_cost
    field_simp
    ring

/-- Witness: the breakdown identities at the totals 0 and 1150000, with the
positivity condition of the ratio clause discharged at 1150000. -/
theorem breakdown_ratios_witness :
    material_cost 0 + labour_cost 0 = 0 ∧
    (0:ℚ) < 1150000 ∧
    material_cost 1150000 + labour_cost 1150000 = 1150000 ∧
    material_cost 1150000 / 1150000 = 65/100 :=
  ⟨(breakdown_ratios 0).2.2.1,
   by norm_num,
   (breakdown_ratios 1150000).2.2.1,
   (breakdown_ratios 1150000).2.2.2.2 (by norm_num)⟩

/-- C2: for every region in the multiplier table and every raw cost, the
region adjustment returns exactly rawCost * table[region] together with the
multiplier; in particular for Lagos and raw cost 1000000 the adjusted cost
is 1000000 * 1.15 = 1150000. -/
theorem adjust_multiplies (r : ℚ) (region : String) (m : ℚ)
    (h : STATE_MULTIPLIERS.lookup region = some m) :
    adjust r region = Except.ok (r * m, m) ∧
    adjust 1000000 "Lagos" = Except.ok (1150000, 115/100) := by
  constructor
  · unfold adjust
    rw [h]
  · have hL : STATE_MULTIPLIERS.lookup "Lagos" = some (115/100) := by rfl
    unfold adjust
    rw [hL]
    norm_num

/-- Witness: the table lookup and adjustment at region Lagos, raw cost 100. -/
theorem adjust_multiplies_witness :
    STATE_MULTIPLIERS.lookup "Lagos" = some (115/100) ∧
    (adjust 100 "Lagos" = Except.ok (100 * (115/100), 115/100) ∧
     adjust 1000000 "Lagos" = Except.ok (1150000, 115/100)) :=
  ⟨by rfl, adjust_multiplies 100 "Lagos" (115/100) (by rfl)⟩

/-- Helper: a key outside the first components of an association list is not
found by lookup. -/
theorem lookup_eq_none_of_not_mem_keys (l : List (String × ℚ)) (c : String)
    (h : c ∉ l.map Prod.fst) : l.lookup c = none := by
  induction l with
  | nil => rfl
  | cons p rest ih =>
    simp only [List.map_cons, List.mem_cons, not_or] at h
    have hb : (c == p.fst) = false := beq_eq_false_iff_ne.mpr h.1
    obtain ⟨k, v⟩ := p
    simp only [List.lookup]
    simp only at hb
    rw [hb]
    exact ih h.2

/-- C5: for every region outside the configured multiplier table, the
adjustment fails with UnknownRegionError; it does not silently return
multiplier 1.0. -/
theorem adjust_unknown_region (x : ℚ) (region : String)
    (h : region ∉ STATE_MULTIPLIERS.map Prod.fst) :
    adjust x region = Except.error QuoteError.UnknownRegionError ∧
    ∀ m : ℚ, adjust x region ≠ Except.ok (x * m, m) := by
  have hn : STATE_MULTIPLIERS.lookup region = none :=
    lookup_eq_none_of_not_mem_keys _ _ h
  constructor
  · unfold adjust
    rw [hn]
  · intro m hm
    unfold adjust at hm
    rw [hn] at hm
    exact Except.noConfusion hm

/-- Witness: the region "Unknown" is outside the table and fails. -/
theorem adjust_unknown_region_witness :
    "Unknown" ∉ STATE_MULTIPLIERS.map Prod.fst ∧
    (adjust 100 "Unknown" = Except.error QuoteError.UnknownRegionError ∧
     ∀ m : ℚ, adjust 100 "Unknown" ≠ Except.ok (100 * m, m)) :=
  ⟨by decide, adjust_unknown_region 100 "Unknown" (by decide)⟩

/-- C9: the select box offers exactly the keys of STATE_MULTIPLIERS, namely
Lagos, Abuja, Rivers, Oyo, Ogun, Kwara, and for every state drawn from these
options the multiplier lookup succeeds: the failure branch of the adjustment
is unreachable from the selector. -/
theorem selector_regions_safe (s : String) (x : ℚ)
    (h : s ∈ selectbox_state_options) :
    selectbox_state_options = ["Lagos", "Abuja", "Rivers", "Oyo", "Ogun", "Kwara"] ∧
    ∃ y, adjust x s = Except.ok y := by
  refine ⟨by decide, ?_⟩
  have h6 : s = "Lagos" ∨ s = "Abuja" ∨ s = "Rivers" ∨ s = "Oyo" ∨
      s = "Ogun" ∨ s = "Kwara" := by
    have he : selectbox_state_options =
        ["Lagos", "Abuja", "Rivers", "Oyo", "Ogun", "Kwara"] := by decide
    rw [he] at h
    simpa using h
  rcases h6 with h6 | h6 | h6 | h6 | h6 | h6 <;> subst h6 <;>
    exact ⟨_, rfl⟩

/-- Witness: the selector option Lagos reaches a successful adjustment. -/
theorem selector_regions_safe_witness :
    "Lagos" ∈ selectbox_state_options ∧
    (selectbox_state_options = ["Lagos", "Abuja", "Rivers", "Oyo", "Ogun", "Kwara"] ∧
     ∃ y, adjust 1 "Lagos" = Except.ok y) :=
  ⟨by decide, selector_regions_safe "Lagos" 1 (by decide)⟩

/-- Project description record: the ten fields collected by the form and
assembled into the single-row input DataFrame, src/app.py lines 99-110. -/
structure ProjectDescription where
  state : String
  building_type : String
  labour_type : String
  floor_area_m2 : ℚ
  rooms : ℚ
  lighting_points : ℚ
  socket_points : ℚ
  switch_points : ℚ
  cable_length_m : ℚ
  conduit_length_m : ℚ

/-- One-hot encoding of the single-row DataFrame, src/app.py line 113:
pd.get_dummies passes the seven numeric columns through unchanged and
expands each of the three categorical columns into the single indicator
column named field_value holding 1 for this row. -/
def get_dummies (d : ProjectDescription) : List (String × ℚ) :=
  [("floor_area_m2", d.floor_area_m2),
   ("rooms", d.rooms),
   ("lighting_points", d.lighting_points),
   ("socket_points", d.socket_points),
   ("switch_points", d.switch_points),
   ("cable_length_m", d.cable_length_m),
   ("conduit_length_m", d.conduit_length_m),
   ("state_" ++ d.state, 1),
   ("building_type_" ++ d.building_type, 1),
   ("labour_type_" ++ d.labour_type, 1)]

/-- Zero-fill loop, src/app.py lines 115-117: every schema column absent from
the encoded frame is appended with value 0. -/
def zeroFill (enc : List (String × ℚ)) (feature_columns : List String) :
    List (String × ℚ) :=
  feature_columns.foldl
    (fun acc col => if (acc.lookup col).isSome then acc else acc ++ [(col, 0)])
    enc

/-- Column selection, src/app.py line 119: input_encoded[feature_columns]
reorders the frame to exactly the schema columns, failing (KeyError) if any
schema column is missing. -/
def selectColumns (enc : List (String × ℚ)) :
    List String → Option (List (String × ℚ))
  | [] => some []
  | col :: rest =>
    match enc.lookup col with
    | none => none
    | some v =>
      match selectColumns enc rest with
      | none => none
      | some l => some ((col, v) :: l)

/-- Full encoder, src/app.py lines 113-119: one-hot encode, zero-fill the
missing schema columns, then select the schema columns in schema order. -/
def input_encoded (d : ProjectDescription) (feature_columns : List String) :
    Option (List (String × ℚ)) :=
  selectColumns (zeroFill (get_dummies d) feature_columns) feature_columns

/-- Helper: lookup distributes over list append. -/
theorem lookup_append (l₁ l₂ : List (String × ℚ)) (c : String) :
    (l₁ ++ l₂).lookup c =
      match l₁.lookup c with
      | some v => some v
      | none => l₂.lookup c := by
  induction l₁ with
  | nil => simp [List.lookup]
  | cons p rest ih =>
    obtain ⟨k, v⟩ := p
    simp only [List.cons_append, List.lookup]
    cases hk : (c == k) <;> simp [ih]

/-- Helper: the zero-fill loop preserves every existing binding. -/
theorem zeroFill_lookup_some (fc : List String) :
    ∀ (enc : List (String × ℚ)) (c : String) (v : ℚ),
      enc.lookup c = some v → (zeroFill enc fc).lookup c = some v := by
  induction fc with
  | nil => intro enc c v h; exact h
  | cons col rest ih =>
    intro enc c v h
    show (zeroFill (if (enc.lookup col).isSome then enc else enc ++ [(col, 0)])
        rest).lookup c = some v
    by_cases hcol : (enc.lookup col).isSome
    · rw [if_pos hcol]
      exact ih enc c v h
    · rw [if_neg hcol]
      apply ih
      rw [lookup_append, h]

/-- Helper: the zero-fill loop binds every schema column missing from the
encoded frame to 0. -/
theorem zeroFill_lookup_none (fc : List String) :
    ∀ (enc : List (String × ℚ)) (c : String),
      c ∈ fc → enc.lookup c = none → (zeroFill enc fc).lookup c = some 0 := by
  induction fc with
  | nil => intro enc c hmem; exact absurd hmem (List.not_mem_nil c)
  | cons col rest ih =>
    intro enc c hmem h
    show (zeroFill (if (enc.lookup col).isSome then enc else enc ++ [(col, 0)])
        rest).lookup c = some 0
    by_cases hcol : (enc.lookup col).isSome
    · rw [if_pos hcol]
      rcases List.mem_cons.mp hmem with he | hr
      · subst he
        rw [h] at hcol
        exact absurd hcol (by simp)
      · exact ih enc c hr h
    · rw [if_neg hcol]
      by_cases he : c = col
      · subst he
        apply zeroFill_lookup_some
        rw [lookup_append, h]
        simp [List.lookup]
      · apply ih
        · rcases List.mem_cons.mp hmem with h' | h'
          · exact absurd h' he
          · exact h'
        · rw [lookup_append, h]
          have hb : (c == col) = false := beq_eq_false_iff_ne.mpr he
          simp [List.lookup, hb]

/-- Helper: when every schema column has a binding, selection succeeds and
returns the schema columns paired with their looked-up values. -/
theorem selectColumns_eq (enc : List (String × ℚ)) :
    ∀ fc : List String, (∀ c ∈ fc, (enc.lookup c).isSome) →
      selectColumns enc fc =
        some (fc.map (fun c => (c, (enc.lookup c).getD 0))) := by
  intro fc
  induction fc with
  | nil => intro _; rfl
  | cons col rest ih =>
    intro h
    obtain ⟨v, hv⟩ := Option.isSome_iff_exists.mp (h col (List.mem_cons_self col rest))
    have hrest := ih (fun c hc => h c (List.mem_cons_of_mem col hc))
    simp [selectColumns, hv, hrest]

/-- Helper: looking up a column of the schema in the selected frame returns
the value looked up in the zero-filled frame. -/
theorem lookup_map_pair (f : String → ℚ) :
    ∀ (fc : List String) (c : String), c ∈ fc →
      (fc.map (fun c => (c, f c))).lookup c = some (f c) := by
  intro fc
  induction fc with
  | nil => intro c hc; exact absurd hc (List.not_mem_nil c)
  | cons col rest ih =>
    intro c hc
    by_cases he : c = col
    · subst he
      simp [List.lookup]
    · have hb : (c == col) = false := beq_eq_false_iff_ne.mpr he
      have hr : c ∈ rest := by
        rcases List.mem_cons.mp hc with h' | h'
        · exact absurd h' he
        · exact h'
      simp [List.lookup, hb, ih c hr]

/-- Helper: the full encoder always succeeds, returning the schema columns in
schema order with the zero-filled values. -/
theorem input_encoded_eq (d : ProjectDescription) (fc : List String) :
    input_encoded d fc =
      some (fc.map (fun c =>
        (c, ((zeroFill (get_dummies d) fc).lookup c).getD 0))) := by
  unfold input_encoded
  apply selectColumns_eq
  intro c hc
  cases h : (get_dummies d).lookup c with
  | some v => rw [zeroFill_lookup_some fc _ c v h]; rfl
  | none => rw [zeroFill_lookup_none fc _ c hc h]; rfl

/-- C3: for every ProjectDescription and every feature schema, the encoder
succeeds and its output has key set exactly the schema columns, in schema
order, and every schema column not populated by the numeric pass-through or
the one-hot indicators holds 0. -/
theorem encode_schema_keys (d : ProjectDescription) (fc : List String) :
    ∃ l, input_encoded d fc = some l ∧
      l.map Prod.fst = fc ∧
      ∀ c ∈ fc, (get_dummies d).lookup c = none → l.lookup c = some 0 := by
  refine ⟨_, input_encoded_eq d fc, ?_, ?_⟩
  · simp [Function.comp_def]
  · intro c hc hnone
    rw [lookup_map_pair _ fc c hc, zeroFill_lookup_none fc _ c hc hnone]
    rfl

/-- Sample project description used by the concrete witnesses. -/
def sampleDescription : ProjectDescription :=
  { state := "Lagos"
    building_type := "Residential"
    labour_type := "Standard"
    floor_area_m2 := 100
    rooms := 3
    lighting_points := 10
    socket_points := 8
    switch_points := 5
    cable_length_m := 50
    conduit_length_m := 30 }

/-- Sample feature schema used by the concrete witnesses. -/
def sampleSchema : List String :=
  ["floor_area_m2", "rooms", "lighting_points", "socket_points",
   "switch_points", "cable_length_m", "conduit_length_m",
   "state_Lagos", "state_Abuja",
   "building_type_Residential", "building_type_Commercial",
   "labour_type_Standard", "labour_type_Skilled"]

/-- Witness: the encoder invariants at the sample description and schema. -/
theorem encode_schema_keys_witness :
    ∃ l, input_encoded sampleDescription sampleSchema = some l ∧
      l.map Prod.fst = sampleSchema ∧
      ∀ c ∈ sampleSchema, (get_dummies sampleDescription).lookup c = none →
        l.lookup c = some 0 :=
  encode_schema_keys sampleDescription sampleSchema

/-- Helper: a building_type indicator column for a category other than the
input's matches no key of the one-hot frame. -/
theorem lookup_dummies_building_type (d : ProjectDescription) (cat : String)
    (hne : cat ≠ d.building_type) :
    (get_dummies d).lookup ("building_type_" ++ cat) = none := by
  apply lookup_eq_none_of_not_mem_keys
  intro hmem
  simp only [get_dummies, List.map_cons, List.map_nil, List.mem_cons,
    List.not_mem_nil, or_false] at hmem
  rcases hmem with h | h | h | h | h | h | h | h | h | h <;>
    (have h2 := congrArg String.data h ;
     simp only [String.data_append] at h2 ;
     simp at h2)
  exact hne (by
    have : cat.data = d.building_type.data := h2
    exact String.ext this)

/-- C4: for every ProjectDescription whose building_type is outside the
categories present in the feature schema, the encoder succeeds and every
building_type indicator column of the schema is 0: neither an error nor a
fallback column is produced. -/
theorem encode_unseen_category (d : ProjectDescription) (fc : List String)
    (h : ("building_type_" ++ d.building_type) ∉ fc) :
    ∃ l, input_encoded d fc = some l ∧
      ∀ cat : String, ("building_type_" ++ cat) ∈ fc →
        l.lookup ("building_type_" ++ cat) = some 0 := by
  refine ⟨_, input_encoded_eq d fc, ?_⟩
  intro cat hcat
  have hne : cat ≠ d.building_type := by
    intro he
    subst he
    exact h hcat
  rw [lookup_map_pair _ fc _ hcat,
    zeroFill_lookup_none fc _ _ hcat (lookup_dummies_building_type d cat hne)]
  rfl

/-- Sample project description with a building type unseen in the schema. -/
def sampleUnseenDescription : ProjectDescription :=
  { sampleDescription with building_type := "Castle" }

/-- Witness: the unseen building type Castle encodes against the sample
schema with all building_type indicator columns at 0. -/
theorem encode_unseen_category_witness :
    ("building_type_" ++ sampleUnseenDescription.building_type) ∉ sampleSchema ∧
    (∃ l, input_encoded sampleUnseenDescription sampleSchema = some l ∧
      ∀ cat : String, ("building_type_" ++ cat) ∈ sampleSchema →
        l.lookup ("building_type_" ++ cat) = some 0) :=
  ⟨by decide, encode_unseen_category sampleUnseenDescription sampleSchema (by decide)⟩

/-- Substring containment on character lists: pat occurs contiguously in the
list.  Embeds the like= matching of pandas Series.filter. -/
def containsPattern (pat : List Char) : List Char → Bool
  | [] => pat.isEmpty
  | c :: rest => pat.isPrefixOf (c :: rest) || containsPattern pat rest

/-- Column name col matches pattern pat when pat is a substring of col, the
semantics of importance.filter(like=pat), src/app.py lines 164-173. -/
def likeMatch (col pat : String) : Bool := containsPattern pat.data col.data

/-- Stable ascending insertion by score into an already processed list. -/
def insertAscBy (x : String × ℚ) : List (String × ℚ) → List (String × ℚ)
  | [] => [x]
  | y :: ys => if x.snd < y.snd then x :: y :: ys else y :: insertAscBy x ys

/-- Sort of labelled scores ascending by score,
pd.Series.sort_values(ascending=True), src/app.py line 178. -/
def sort_values_asc : List (String × ℚ) → List (String × ℚ)
  | [] => []
  | x :: xs => insertAscBy x (sort_values_asc xs)

/-- Stable descending insertion by score into an already processed list. -/
def insertDescBy (x : String × ℚ) : List (String × ℚ) → List (String × ℚ)
  | [] => [x]
  | y :: ys => if x.snd > y.snd then x :: y :: ys else y :: insertDescBy x ys

/-- Sort of labelled scores descending by score,
pd.Series.sort_values(ascending=False), src/app.py line 160. -/
def sort_values_desc : List (String × ℚ) → List (String × ℚ)
  | [] => []
  | x :: xs => insertDescBy x (sort_values_desc xs)

/-- Importance series, src/app.py lines 157-160: the per-column importances
of the model, indexed by the feature columns, sorted descending. -/
def importance_series (featureImportances : List (String × ℚ)) :
    List (String × ℚ) :=
  sort_values_desc featureImportances

/-- Selection importance.filter(like=pat): the entries whose column name
contains pat. -/
def filterLike (imp : List (String × ℚ)) (pat : String) :
    List (String × ℚ) :=
  imp.filter (fun p => likeMatch p.fst pat)

/-- Score of one display category: importance.filter(like=pat).sum(),
src/app.py lines 164-173. -/
def groupScore (imp : List (String × ℚ)) (pat : String) : ℚ :=
  ((filterLike imp pat).map Prod.snd).sum

/-- Grouped importances, src/app.py lines 163-174: each display label paired
with the summed importances of the columns matching its pattern. -/
def importance_groups (imp : List (String × ℚ))
    (rules : List (String × String)) : List (String × ℚ) :=
  rules.map (fun r => (r.fst, groupScore imp r.snd))

/-- Category grouping rules of src/app.py lines 163-174: display label and
the column-name substring its category sums over. -/
def grouping_rules : List (String × String) :=
  [("Floor Area", "floor_area"),
   ("Rooms", "rooms"),
   ("Lighting Points", "lighting_points"),
   ("Socket Points", "socket_points"),
   ("Switch Points", "switch_points"),
   ("Cable Length", "cable_length"),
   ("Conduit Length", "conduit_length"),
   ("Building Type", "building_type"),
   ("Labour Skill", "labour_type"),
   ("State Factor", "state")]

/-- Explainer output, src/app.py lines 176-179: the grouped importances of
the descending-sorted series, sorted ascending by score. -/
def importance_df (featureImportances : List (String × ℚ))
    (rules : List (String × String)) : List (String × ℚ) :=
  sort_values_asc (importance_groups (importance_series featureImportances) rules)

/-- Helper: membership in an ascending insertion. -/
theorem mem_insertAscBy (x z : String × ℚ) :
    ∀ l, z ∈ insertAscBy x l ↔ z = x ∨ z ∈ l := by
  intro l
  induction l with
  | nil => simp [insertAscBy]
  | cons y ys ih =>
    by_cases h : x.snd < y.snd
    · simp [insertAscBy, h]
    · simp only [insertAscBy, if_neg h, List.mem_cons, ih]
      tauto

/-- Helper: ascending insertion preserves sortedness by score. -/
theorem insertAscBy_pairwise (x : String × ℚ) :
    ∀ l, l.Pairwise (fun a b => a.snd ≤ b.snd) →
      (insertAscBy x l).Pairwise (fun a b => a.snd ≤ b.snd) := by
  intro l
  induction l with
  | nil => intro _; simp [insertAscBy]
  | cons y ys ih =>
    intro hp
    rw [List.pairwise_cons] at hp
    obtain ⟨hy, hys⟩ := hp
    by_cases h : x.snd < y.snd
    · simp only [insertAscBy, if_pos h]
      refine List.Pairwise.cons ?_ (List.Pairwise.cons hy hys)
      intro z hz
      rcases List.mem_cons.mp hz with he | hzys
      · subst he; exact le_of_lt h
      · exact le_trans (le_of_lt h) (hy z hzys)
    · simp only [insertAscBy, if_neg h]
      refine List.Pairwise.cons ?_ (ih hys)
      intro z hz
      rcases (mem_insertAscBy x z ys).mp hz with he | hzys
      · subst he; exact not_lt.mp h
      · exact hy z hzys

/-- Helper: the ascending sort produces an ascending list. -/
theorem sort_values_asc_pairwise :
    ∀ l, (sort_values_asc l).Pairwise (fun a b => a.snd ≤ b.snd) := by
  intro l
  induction l with
  | nil => simp [sort_values_asc]
  | cons x xs ih => exact insertAscBy_pairwise x _ ih

/-- C8: for every raw importance mapping and grouping rules, the explainer
output is ordered ascending by score, smallest score first. -/
theorem importance_df_sorted (fi : List (String × ℚ))
    (rules : List (String × String)) :
    (importance_df fi rules).Pairwise (fun a b => a.snd ≤ b.snd) :=
  sort_values_asc_pairwise _

/-- Helper: a category score is the sum, over all entries, of the importance
when the column matches and 0 otherwise. -/
theorem groupScore_eq_sum_ite (pat : String) :
    ∀ imp : List (String × ℚ),
      groupScore imp pat =
        (imp.map (fun p => if likeMatch p.fst pat then p.snd else 0)).sum := by
  intro imp
  induction imp with
  | nil => rfl
  | cons p rest ih =>
    by_cases h : likeMatch p.fst pat
    · simp [groupScore, filterLike, List.filter_cons, h] at ih ⊢
      rw [ih]
    · simp [groupScore, filterLike, List.filter_cons, h] at ih ⊢
      rw [ih]

/-- Helper: a sum of pointwise sums splits. -/
theorem sum_map_add_split (f g : (String × ℚ) → ℚ) :
    ∀ l : List (String × ℚ),
      (l.map (fun p => f p + g p)).sum = (l.map f).sum + (l.map g).sum := by
  intro l
  induction l with
  | nil => simp
  | cons p rest ih =>
    simp only [List.map_cons, List.sum_cons, ih]
    ring

/-- Helper: pointwise equal summands give equal sums. -/
theorem map_sum_congr (f g : (String × ℚ) → ℚ) :
    ∀ l : List (String × ℚ), (∀ p ∈ l, f p = g p) →
      (l.map f).sum = (l.map g).sum := by
  intro l
  induction l with
  | nil => intro _; rfl
  | cons p rest ih =>
    intro h
    simp only [List.map_cons, List.sum_cons, h p (List.mem_cons_self p rest),
      ih (fun q hq => h q (List.mem_cons_of_mem p hq))]

/-- Number of grouping patterns that match a column name. -/
def countMatch (rules : List (String × String)) (col : String) : ℕ :=
  (rules.filter (fun r => likeMatch col r.snd)).length

/-- Helper: the sum of all category scores counts each importance once per
matching pattern. -/
theorem groups_sum_eq (imp : List (String × ℚ)) :
    ∀ rules : List (String × String),
      ((importance_groups imp rules).map Prod.snd).sum =
        (imp.map (fun p => (countMatch rules p.fst : ℚ) * p.snd)).sum := by
  intro rules
  induction rules with
  | nil =>
    simp [importance_groups, countMatch]
  | cons r rs ih =>
    have hstep : ∀ p ∈ imp,
        (countMatch (r :: rs) p.fst : ℚ) * p.snd =
          (if likeMatch p.fst r.snd then p.snd else 0) +
            (countMatch rs p.fst : ℚ) * p.snd := by
      intro p _
      unfold countMatch
      rw [List.filter_cons]
      by_cases h : likeMatch p.fst r.snd
      · simp only [h, if_pos, List.length_cons]
        push_cast
        ring
      · simp [h]
    calc ((importance_groups imp (r :: rs)).map Prod.snd).sum
        = groupScore imp r.snd + ((importance_groups imp rs).map Prod.snd).sum := by
          simp [importance_groups]
      _ = (imp.map (fun p => if likeMatch p.fst r.snd then p.snd else 0)).sum +
            (imp.map (fun p => (countMatch rs p.fst : ℚ) * p.snd)).sum := by
          rw [groupScore_eq_sum_ite, ih]
      _ = (imp.map (fun p => (if likeMatch p.fst r.snd then p.snd else 0) +
            (countMatch rs p.fst : ℚ) * p.snd)).sum :=
          (sum_map_add_split _ _ imp).symm
      _ = (imp.map (fun p => (countMatch (r :: rs) p.fst : ℚ) * p.snd)).sum :=
          (map_sum_congr _ _ imp hstep).symm

/-- Helper: when every column matches exactly one pattern the weighted sum
collapses to the plain sum. -/
theorem count_one_sum (rules : List (String × String)) :
    ∀ imp : List (String × ℚ), (∀ p ∈ imp, countMatch rules p.fst = 1) →
      (imp.map (fun p => (countMatch rules p.fst : ℚ) * p.snd)).sum =
        (imp.map Prod.snd).sum := by
  intro imp
  induction imp with
  | nil => intro _; rfl
  | cons p rest ih =>
    intro h
    simp [h p (List.mem_cons_self p rest),
      ih (fun q hq => h q (List.mem_cons_of_mem p hq))]

/-- Helper: descending insertion permutes the element onto the list. -/
theorem insertDescBy_perm (x : String × ℚ) :
    ∀ l, (insertDescBy x l).Perm (x :: l) := by
  intro l
  induction l with
  | nil => exact List.Perm.refl [x]
  | cons y ys ih =>
    by_cases h : x.snd > y.snd
    · simp [insertDescBy, h]
    · simp only [insertDescBy, if_neg h]
      exact (ih.cons y).trans (List.Perm.swap x y ys)

/-- Helper: the descending sort is a permutation of its input. -/
theorem sort_values_desc_perm : ∀ l, (sort_values_desc l).Perm l := by
  intro l
  induction l with
  | nil => exact List.Perm.refl []
  | cons x xs ih =>
    exact (insertDescBy_perm x (sort_values_desc xs)).trans (ih.cons x)

/-- Helper: category scores are invariant under permutation of the raw
importance entries. -/
theorem groupScore_perm (imp imp' : List (String × ℚ)) (pat : String)
    (h : imp.Perm imp') : groupScore imp pat = groupScore imp' pat :=
  List.Perm.sum_eq ((h.filter _).map Prod.snd)

/-- Helper: the grouped importances are invariant under permutation of the
raw importance entries. -/
theorem importance_groups_perm (imp imp' : List (String × ℚ))
    (rules : List (String × String)) (h : imp.Perm imp') :
    importance_groups imp rules = importance_groups imp' rules := by
  unfold importance_groups
  induction rules with
  | nil => rfl
  | cons r rs ih =>
    simp only [List.map_cons, ih, groupScore_perm imp imp' r.snd h]

/-- C7: for every raw importance mapping and every set of grouping rules
whose patterns partition the column set (each column matched by exactly one
pattern), the sum of all category scores of the explainer equals the sum of
all raw per-column importances. -/
theorem grouping_totals (fi : List (String × ℚ))
    (rules : List (String × String))
    (hpart : ∀ p ∈ fi, countMatch rules p.fst = 1) :
    ((importance_groups (importance_series fi) rules).map Prod.snd).sum =
      (fi.map Prod.snd).sum := by
  have hperm : (importance_series fi).Perm fi := sort_values_desc_perm fi
  have hpart' : ∀ p ∈ importance_series fi, countMatch rules p.fst = 1 :=
    fun p hp => hpart p (hperm.mem_iff.mp hp)
  rw [groups_sum_eq (importance_series fi) rules,
    count_one_sum rules _ hpart']
  exact List.Perm.sum_eq (hperm.map Prod.snd)

/-- Sample raw importances over the full schema, used by the witnesses. -/
def sampleImportances : List (String × ℚ) :=
  [("floor_area_m2", 30), ("rooms", 5), ("lighting_points", 10),
   ("socket_points", 8), ("switch_points", 7), ("cable_length_m", 12),
   ("conduit_length_m", 6), ("state_Lagos", 4),
   ("building_type_Residential", 9), ("labour_type_Standard", 9)]

/-- Witness: on the sample importances the ten configured grouping patterns
partition the columns and the category scores sum to the raw total. -/
theorem grouping_totals_witness :
    (∀ p ∈ sampleImportances, countMatch grouping_rules p.fst = 1) ∧
    ((importance_groups (importance_series sampleImportances)
        grouping_rules).map Prod.snd).sum =
      (sampleImportances.map Prod.snd).sum :=
  ⟨by decide, grouping_totals sampleImportances grouping_rules (by decide)⟩

/-- C10: the descending pre-sort of the raw importances has no effect on the
explainer output: the final grouped, ascending-sorted result is invariant
under any permutation of the raw entries, and coincides with the result
computed directly from the unsorted importances. -/
theorem explain_sort_invariant (fi fi' : List (String × ℚ))
    (rules : List (String × String)) (h : fi.Perm fi') :
    importance_df fi rules = importance_df fi' rules ∧
    importance_df fi rules = sort_values_asc (importance_groups fi rules) := by
  constructor
  · unfold importance_df
    rw [importance_groups_perm (importance_series fi) (importance_series fi')
      rules ((sort_values_desc_perm fi).trans
        (h.trans (sort_values_desc_perm fi').symm))]
  · unfold importance_df
    rw [importance_groups_perm (importance_series fi) fi rules
      (sort_values_desc_perm fi)]

/-- Witness: the explainer output at a two-entry importance list and its
transposition. -/
theorem explain_sort_invariant_witness :
    ([(("rooms":String), (1:ℚ)), ("state_Lagos", 2)].Perm
      [("state_Lagos", 2), ("rooms", 1)]) ∧
    (importance_df [("rooms", 1), ("state_Lagos", 2)] grouping_rules =
        importance_df [("state_Lagos", 2), ("rooms", 1)] grouping_rules ∧
      importance_df [("rooms", 1), ("state_Lagos", 2)] grouping_rules =
        sort_values_asc (importance_groups [("rooms", 1), ("state_Lagos", 2)]
          grouping_rules)) :=
  ⟨by decide, explain_sort_invariant [("rooms", 1), ("state_Lagos", 2)]
    [("state_Lagos", 2), ("rooms", 1)] grouping_rules (by decide)⟩

/-- Python float value: finite (embedded as a rational), an infinity, or NaN.
Used where finiteness of the adjusted cost matters. -/
inductive PyFloat where
  | finite : ℚ → PyFloat
  | posInf : PyFloat
  | negInf : PyFloat
  | nan : PyFloat
deriving DecidableEq

/-- Finiteness of a Python float. -/
def PyFloat.isFinite : PyFloat → Bool
  | .finite _ => true
  | _ => false

/-- Multiplication of a Python float by a positive finite rational constant,
following IEEE-754 semantics: finite values multiply, infinities keep their
sign, NaN propagates; no exception is ever raised. -/
def PyFloat.mulPos : PyFloat → ℚ → PyFloat
  | .finite q, c => .finite (q * c)
  | .posInf, _ => .posInf
  | .negInf, _ => .negInf
  | .nan, _ => .nan

/-- Materials share on Python floats, src/app.py line 133:
material_cost = total_cost * 0.65. -/
def material_cost_f (total_cost : PyFloat) : PyFloat :=
  total_cost.mulPos (65/100)

/-- Labour share on Python floats, src/app.py line 134:
labour_cost = total_cost * 0.35. -/
def labour_cost_f (total_cost : PyFloat) : PyFloat :=
  total_cost.mulPos (35/100)

/-- Breakdown exactly as the code performs it, src/app.py lines 133-134: two
plain float multiplications, which raise no exception for any input,
finite or not. -/
def breakdown_code (t : PyFloat) : Except QuoteError (PyFloat × PyFloat) :=
  Except.ok (material_cost_f t, labour_cost_f t)

/-- Modelled from the spec: a breakdown calculator that fails with
InvalidCostError on non-finite input and otherwise computes the two shares.
No such check exists in src/app.py; this definition only renders the
specification sentence for comparison with breakdown_code. -/
def breakdown_spec (t : PyFloat) : Except QuoteError (PyFloat × PyFloat) :=
  if t.isFinite then Except.ok (material_cost_f t, labour_cost_f t)
  else Except.error QuoteError.InvalidCostError

/-- C6 counterexample: at the non-finite adjusted cost NaN the code succeeds,
returning NaN shares, while the claimed behaviour is failure with
InvalidCostError; the two disagree at this input. -/
theorem breakdown_nonfinite_counterexample :
    breakdown_code PyFloat.nan = Except.ok (PyFloat.nan, PyFloat.nan) ∧
    breakdown_spec PyFloat.nan = Except.error QuoteError.InvalidCostError ∧
    breakdown_code PyFloat.nan ≠ breakdown_spec PyFloat.nan := by
  refine ⟨rfl, rfl, ?_⟩
  intro h
  exact Except.noConfusion h

/-- C6 amended: the cost breakdown calculator has no error condition at all:
for every adjusted cost, finite or not, it succeeds with
materials = t * 0.65 and labour = t * 0.35, and a non-finite adjusted cost
propagates to non-finite shares instead of failing with InvalidCostError. -/
theorem breakdown_never_fails (t : PyFloat) :
    breakdown_code t = Except.ok (t.mulPos (65/100), t.mulPos (35/100)) ∧
    (∀ e, breakdown_code t ≠ Except.error e) ∧
    (material_cost_f t).isFinite = t.isFinite ∧
    (labour_cost_f t).isFinite = t.isFinite := by
  refine ⟨rfl, fun e h => Except.noConfusion h, ?_, ?_⟩ <;>
    cases t <;> rfl
